import Mathlib

/-!
Verification of the Liftoff workout tracker's session engine, workout store,
authorization guard and progress aggregator.

The Go repository layer (`backend/repository/session.go`, the workout
repository, `backend/main.go` handlers) is shallowly embedded as pure
functions over an explicit `Store` of table rows.  Conventions:

* Entity identifiers are `Nat`.  The Go code generates fresh UUIDs for every
  inserted row; freshness is modelled by a `nextId` counter in the store
  (every generated id is the current counter, which is then incremented).
* Caller identities (user ids) are `String`, because the repository code
  uses the empty string `""` as the "internal call, skip ownership checks"
  sentinel (`if userID != "" { ... }`).
* Timestamps are `Nat` ticks of a store clock; every `time.Now()` call in
  the Go code reads the clock and advances it, so distinct calls yield
  strictly increasing instants.  `DATE(ts)` is modelled by `dateOf`
  (division by the number of ticks per day).
* Numeric weights (`DECIMAL(8,2)` / `REAL` / Go `float64`) are modelled as
  `Int` (e.g. hundredths of the unit); reps are `Int` (Go `int`).
* SQL queries are translated row-by-row: `WHERE` clauses become filters,
  joins become nested `flatMap` with the join condition, `ORDER BY` becomes
  an insertion sort on the key, `LIMIT 1` becomes `head?`.  Ids are primary
  keys, so `find?` by id is used where a query selects a single row.
* Fallible operations return `Except Err` paired with the resulting store;
  mutating operations performed before a failure keep their effect, exactly
  as in the non-transactional Go code.
-/

set_option linter.unusedVariables false

namespace Liftoff

/-- A row of the `workouts` table (id, owning user, name, created_at). -/
structure WorkoutRow where
  id : Nat
  userId : String
  name : String
  createdAt : Nat
deriving Repr, DecidableEq

/-- A row of the `exercises` table: planned sets count, reps and weight,
owned by a workout. -/
structure ExerciseRow where
  id : Nat
  workoutId : Nat
  name : String
  sets : Nat
  reps : Int
  weight : Int
  createdAt : Nat
deriving Repr, DecidableEq

/-- A row of the `workout_sessions` table. -/
structure SessionRow where
  id : Nat
  userId : String
  workoutId : Nat
  startedAt : Nat
  endedAt : Option Nat
  isActive : Bool
  createdAt : Nat
  updatedAt : Nat
deriving Repr, DecidableEq

/-- A row of the `session_exercises` table. -/
structure SessionExerciseRow where
  id : Nat
  sessionId : Nat
  exerciseId : Nat
  createdAt : Nat
  updatedAt : Nat
deriving Repr, DecidableEq

/-- A row of the `exercise_sets` table. -/
structure SetRow where
  id : Nat
  sessionExerciseId : Nat
  reps : Int
  weight : Int
  completed : Bool
  notes : Option String
  createdAt : Nat
  updatedAt : Nat
deriving Repr, DecidableEq

/-- The database state: the five core tables plus the fresh-id source and
the clock (see the module comment). -/
structure Store where
  workouts : List WorkoutRow
  exercises : List ExerciseRow
  sessions : List SessionRow
  sessionExercises : List SessionExerciseRow
  exerciseSets : List SetRow
  nextId : Nat
  clock : Nat
deriving Repr, DecidableEq

/-- Error outcomes of the repository layer, one constructor per distinct Go
error message. -/
inductive Err where
  | sessionNotFoundOrDenied
  | sessionExerciseNotFoundOrDenied
  | exerciseSetNotFoundOrDenied
  | invalidSetIndex (i : Int)
  | failedToGetWorkout
  | failedToGetExercise
  | failedToEndSession
  | workoutNotFound
deriving Repr, DecidableEq

/-- Number of clock ticks per calendar day; `DATE(created_at)` of a tick is
its day index. -/
def ticksPerDay : Nat := 86400

/-- Calendar date (UTC day index) of a timestamp, modelling SQL `DATE(ts)`. -/
def dateOf (t : Nat) : Nat := t / ticksPerDay

/-! ## Read helpers (translations of the SELECT queries in session.go) -/

/-- Translation of `SELECT id FROM workout_sessions WHERE id = ? AND user_id = ?`
(getSessionForUser, both dialects). -/
def getSessionForUser (uid : String) (sid : Nat) (s : Store) : Option SessionRow :=
  s.sessions.find? (fun r => r.id == sid && r.userId == uid)

/-- Translation of `SELECT 1 FROM session_exercises se JOIN workout_sessions ws ON
se.session_id = ws.id WHERE se.id = ? AND ws.user_id = ?`
(verifySessionExerciseAccess; `true` iff the query returns a row). -/
def verifySessionExerciseAccess (uid : String) (seid : Nat) (s : Store) : Bool :=
  s.sessionExercises.any (fun se =>
    se.id == seid && s.sessions.any (fun ws => ws.id == se.sessionId && ws.userId == uid))

/-- Translation of `SELECT session_exercise_id FROM exercise_sets WHERE id = ?`
(getSessionExerciseIDForSet). -/
def getSessionExerciseIDForSet (setId : Nat) (s : Store) : Option Nat :=
  (s.exerciseSets.find? (fun r => r.id == setId)).map (fun r => r.sessionExerciseId)

/-- Translation of `SELECT ... FROM exercise_sets WHERE session_exercise_id = ? ORDER BY
created_at ASC` (GetExerciseSets, both dialects). -/
def getExerciseSets (seid : Nat) (s : Store) : List SetRow :=
  List.insertionSort (fun a b => a.createdAt ≤ b.createdAt)
    (s.exerciseSets.filter (fun r => r.sessionExerciseId == seid))

/-- Translation of `SELECT ... FROM session_exercises WHERE session_id = ? ORDER BY
created_at ASC` (GetSessionExercises, both dialects). -/
def getSessionExercises (sid : Nat) (s : Store) : List SessionExerciseRow :=
  List.insertionSort (fun a b => a.createdAt ≤ b.createdAt)
    (s.sessionExercises.filter (fun r => r.sessionId == sid))

/-- Translation of `SELECT ... FROM workout_sessions WHERE user_id = ? AND is_active = true
ORDER BY started_at DESC LIMIT 1` (GetActiveSession; `is_active = 1` on the
SQLite dialect denotes the same condition). Returns `none` on no rows. -/
def getActiveSession (uid : String) (s : Store) : Option SessionRow :=
  (List.insertionSort (fun a b => b.startedAt ≤ a.startedAt)
    (s.sessions.filter (fun r => r.userId == uid && r.isActive))).head?

/-- Translation of `SELECT ... FROM workout_sessions WHERE user_id = ? AND is_active = false
AND ended_at IS NOT NULL ORDER BY ended_at DESC` (GetCompletedSessions). -/
def getCompletedSessions (uid : String) (s : Store) : List SessionRow :=
  List.insertionSort (fun a b => b.endedAt.getD 0 ≤ a.endedAt.getD 0)
    (s.sessions.filter (fun r => r.userId == uid && !r.isActive && !(r.endedAt == none)))

/-- Translation of `SELECT id, workout_id, started_at, ended_at, is_active, created_at,
updated_at FROM workout_sessions WHERE id = ?` (getSession, both dialects).
The column list omits `user_id`, so the scanned Go struct keeps the zero
value `""` in its owning-user field. -/
def getSession (sid : Nat) (s : Store) : Except Err SessionRow :=
  match s.sessions.find? (fun r => r.id == sid) with
  | none => .error .failedToEndSession
  | some r => .ok { r with userId := "" }

/-! ## WorkoutSession operations -/

/-- Translation of `INSERT INTO workout_sessions ... RETURNING ...` (createSessionPostgres):
a fresh id and a single `time.Now()` used for started_at, created_at and
updated_at; the row is returned from the RETURNING clause. -/
def createSessionPostgres (uid : String) (wid : Nat) (s : Store) :
    Except Err SessionRow × Store :=
  let row : SessionRow :=
    { id := s.nextId
      userId := uid
      workoutId := wid
      startedAt := s.clock
      endedAt := none
      isActive := true
      createdAt := s.clock
      updatedAt := s.clock }
  (.ok row,
    { s with
        sessions := s.sessions ++ [row]
        nextId := s.nextId + 1
        clock := s.clock + 1 })

/-- Translation of `INSERT INTO workout_sessions ...` then construct the returned struct in
Go (createSessionSQLite); same fields as the Postgres variant. -/
def createSessionSQLite (uid : String) (wid : Nat) (s : Store) :
    Except Err SessionRow × Store :=
  let row : SessionRow :=
    { id := s.nextId
      userId := uid
      workoutId := wid
      startedAt := s.clock
      endedAt := none
      isActive := true
      createdAt := s.clock
      updatedAt := s.clock }
  (.ok row,
    { s with
        sessions := s.sessions ++ [row]
        nextId := s.nextId + 1
        clock := s.clock + 1 })

/-- CreateSession dispatches to one of the two dialects; both produce the
same logical effect, so the pipeline below uses the Postgres translation. -/
def createSession (uid : String) (wid : Nat) (s : Store) :
    Except Err SessionRow × Store :=
  createSessionPostgres uid wid s

/-- The row transformation of the EndSession UPDATE statement: a row
matching `id = sid AND user_id = uid` gets `ended_at = t1`,
`is_active = false`, `updated_at = t2`; any other row is untouched. -/
def endUpdate (uid : String) (sid : Nat) (t1 t2 : Nat) (r : SessionRow) : SessionRow :=
  if r.id == sid && r.userId == uid then
    { r with endedAt := some t1, isActive := false, updatedAt := t2 }
  else r

/-- Translation of `UPDATE workout_sessions SET ended_at = $2, is_active = false,
updated_at = $3 WHERE id = $1 AND user_id = $4 RETURNING ...`
(endSessionPostgres).  The two `time.Now()` arguments are distinct clock
reads; no row matched means `pgx.ErrNoRows` from QueryRow. -/
def endSessionPostgres (uid : String) (sid : Nat) (s : Store) :
    Except Err SessionRow × Store :=
  if s.sessions.any (fun r => r.id == sid && r.userId == uid) then
    let sessions2 := s.sessions.map (endUpdate uid sid s.clock (s.clock + 1))
    let s2 := { s with sessions := sessions2, clock := s.clock + 2 }
    match sessions2.find? (fun r => r.id == sid && r.userId == uid) with
    | some r => (.ok r, s2)
    | none => (.error .failedToEndSession, s2)
  else
    (.error .failedToEndSession, { s with clock := s.clock + 2 })

/-- Translation of `UPDATE workout_sessions SET ended_at = ?, is_active = 0, updated_at = ?
WHERE id = ? AND user_id = ?`, check `RowsAffected`, then re-fetch via
`getSessionSQLite` (endSessionSQLite).  The re-fetch does not select
`user_id`, so the returned session carries an empty owning-user id. -/
def endSessionSQLite (uid : String) (sid : Nat) (s : Store) :
    Except Err SessionRow × Store :=
  let affected := s.sessions.countP (fun r => r.id == sid && r.userId == uid)
  let sessions2 := s.sessions.map (endUpdate uid sid s.clock (s.clock + 1))
  let s2 := { s with sessions := sessions2, clock := s.clock + 2 }
  if affected == 0 then
    (.error .sessionNotFoundOrDenied, { s with clock := s.clock + 2 })
  else
    match getSession sid s2 with
    | .error e => (.error e, s2)
    | .ok r => (.ok r, s2)

/-- Which storage backend the repository was constructed with. -/
inductive Backend where
  | postgres
  | sqlite
deriving Repr, DecidableEq

/-- EndSession dispatches on `useSQLite`. -/
def endSession (b : Backend) (uid : String) (sid : Nat) (s : Store) :
    Except Err SessionRow × Store :=
  match b with
  | .postgres => endSessionPostgres uid sid s
  | .sqlite => endSessionSQLite uid sid s

/-! ## SessionExercise operations -/

/-- The shared insert of createSessionExercisePostgres / SQLite: a fresh id,
one `time.Now()` for created_at and updated_at. -/
def createSessionExerciseCore (sid eid : Nat) (s : Store) :
    SessionExerciseRow × Store :=
  let row : SessionExerciseRow :=
    { id := s.nextId
      sessionId := sid
      exerciseId := eid
      createdAt := s.clock
      updatedAt := s.clock }
  (row,
    { s with
        sessionExercises := s.sessionExercises ++ [row]
        nextId := s.nextId + 1
        clock := s.clock + 1 })

/-- CreateSessionExercise: when a caller identity is supplied the session
must belong to it (`getSessionForUser`), otherwise the check is skipped
(internal call from CreateSessionWithExercises passes `""`). -/
def createSessionExercise (uid : String) (sid eid : Nat) (s : Store) :
    Except Err SessionExerciseRow × Store :=
  if uid ≠ "" ∧ (getSessionForUser uid sid s).isNone then
    (.error .sessionNotFoundOrDenied, s)
  else
    let (row, s2) := createSessionExerciseCore sid eid s
    (.ok row, s2)

/-! ## ExerciseSet operations -/

/-- The caller-supplied fields of a set insert (POST /exercise-sets body or
the internal fan-out). -/
structure SetInput where
  sessionExerciseId : Nat
  reps : Int
  weight : Int
  completed : Bool
  notes : Option String
deriving Repr, DecidableEq

/-- The shared insert of createExerciseSetPostgres / SQLite. -/
def createExerciseSetCore (inp : SetInput) (s : Store) : SetRow × Store :=
  let row : SetRow :=
    { id := s.nextId
      sessionExerciseId := inp.sessionExerciseId
      reps := inp.reps
      weight := inp.weight
      completed := inp.completed
      notes := inp.notes
      createdAt := s.clock
      updatedAt := s.clock }
  (row,
    { s with
        exerciseSets := s.exerciseSets ++ [row]
        nextId := s.nextId + 1
        clock := s.clock + 1 })

/-- CreateExerciseSet: with a non-empty caller the session-exercise's
ownership chain is verified, otherwise the check is skipped. -/
def createExerciseSet (uid : String) (inp : SetInput) (s : Store) :
    Except Err SetRow × Store :=
  if uid ≠ "" ∧ verifySessionExerciseAccess uid inp.sessionExerciseId s = false then
    (.error .sessionExerciseNotFoundOrDenied, s)
  else
    let (row, s2) := createExerciseSetCore inp s
    (.ok row, s2)

/-- The fields written by UpdateExerciseSet.  The Go struct's
SessionExerciseID string uses `""` for "not supplied"; that sentinel is
modelled as `none`. -/
structure SetUpdate where
  id : Nat
  sessionExerciseId : Option Nat
  reps : Int
  weight : Int
  completed : Bool
  notes : Option String
deriving Repr, DecidableEq

/-- Translation of `UPDATE exercise_sets SET reps = ?, weight = ?, completed = ?, notes = ?,
updated_at = ? WHERE id = ?` (updateExerciseSetPostgres / SQLite); an id
matching no row is a silent no-op (Exec's affected count is ignored). -/
def updateExerciseSetCore (u : SetUpdate) (s : Store) : Store :=
  { s with
      clock := s.clock + 1
      exerciseSets := s.exerciseSets.map (fun r =>
        if r.id == u.id then
          { r with
              reps := u.reps
              weight := u.weight
              completed := u.completed
              notes := u.notes
              updatedAt := s.clock }
        else r) }

/-- UpdateExerciseSet: with a non-empty caller, resolve the set's
session-exercise id (from the update struct if supplied, otherwise from the
database) and verify the ownership chain; then run the update. -/
def updateExerciseSet (uid : String) (u : SetUpdate) (s : Store) :
    Except Err Unit × Store :=
  if uid = "" then
    (.ok (), updateExerciseSetCore u s)
  else
    match (match u.sessionExerciseId with
           | some seid => some seid
           | none => getSessionExerciseIDForSet u.id s) with
    | none => (.error .exerciseSetNotFoundOrDenied, s)
    | some seid =>
      if verifySessionExerciseAccess uid seid s then
        (.ok (), updateExerciseSetCore u s)
      else
        (.error .exerciseSetNotFoundOrDenied, s)

/-- CompleteExerciseSet: verify ownership (skipped for `""`), fetch the
session-exercise's sets in creation order, reject an out-of-range index
(`setIndex < 0 || setIndex >= len(sets)`), then write the chosen set back
with `Completed = true` via UpdateExerciseSet. -/
def completeExerciseSet (uid : String) (seid : Nat) (setIndex : Int) (s : Store) :
    Except Err Unit × Store :=
  if uid ≠ "" ∧ verifySessionExerciseAccess uid seid s = false then
    (.error .sessionExerciseNotFoundOrDenied, s)
  else
    let sets := getExerciseSets seid s
    if h : setIndex < 0 ∨ (sets.length : Int) ≤ setIndex then
      (.error (.invalidSetIndex setIndex), s)
    else
      let t := sets.get ⟨setIndex.toNat, by omega⟩
      updateExerciseSet uid
        { id := t.id
          sessionExerciseId := some t.sessionExerciseId
          reps := t.reps
          weight := t.weight
          completed := true
          notes := t.notes } s

/-! ## Workout store -/

/-- Translation of `SELECT ... FROM exercises WHERE workout_id = ? ORDER BY created_at ASC`
(GetExercisesByWorkout). -/
def getExercisesByWorkout (wid : Nat) (s : Store) : List ExerciseRow :=
  List.insertionSort (fun a b => a.createdAt ≤ b.createdAt)
    (s.exercises.filter (fun e => e.workoutId == wid))

/-- Translation of `SELECT ... FROM exercises WHERE id = ?` (GetExercise; no caller
identity, any existing exercise row is returned). -/
def getExercise (eid : Nat) (s : Store) : Except Err ExerciseRow :=
  match s.exercises.find? (fun e => e.id == eid) with
  | none => .error .failedToGetExercise
  | some e => .ok e

/-- Modelled from the spec: the current WorkoutRepository.GetWorkout taking a
caller identity is absent from the source snapshot (only its callers are
present).  Per the spec, `getWorkout(ownerId, id)` returns the workout with
its exercises attached in creation order when the row exists and belongs to
the caller, and `NotFound` both when the row is missing and when it belongs
to another user. -/
def getWorkout (uid : String) (wid : Nat) (s : Store) :
    Except Err (WorkoutRow × List ExerciseRow) :=
  match s.workouts.find? (fun w => w.id == wid && w.userId == uid) with
  | none => .error .workoutNotFound
  | some w => .ok (w, getExercisesByWorkout wid s)

/-- Translation of `DELETE FROM workouts WHERE id = ?` with the declared foreign keys of
the schema applied (`001_initial_schema.sql` and `createSQLiteTables`):
`exercises.workout_id → workouts ON DELETE CASCADE`,
`workout_sessions.workout_id → workouts ON DELETE CASCADE`,
`session_exercises.{session_id,exercise_id} → ... ON DELETE CASCADE`,
`exercise_sets.session_exercise_id → session_exercises ON DELETE CASCADE`. -/
def deleteWorkoutCascade (wid : Nat) (s : Store) : Store :=
  let deadExercises := s.exercises.filter (fun e => e.workoutId == wid)
  let deadSessions := s.sessions.filter (fun t => t.workoutId == wid)
  let deadSE := s.sessionExercises.filter (fun se =>
    deadSessions.any (fun t => t.id == se.sessionId) ||
    deadExercises.any (fun e => e.id == se.exerciseId))
  { s with
      workouts := s.workouts.filter (fun w => !(w.id == wid))
      exercises := s.exercises.filter (fun e => !(e.workoutId == wid))
      sessions := s.sessions.filter (fun t => !(t.workoutId == wid))
      sessionExercises := s.sessionExercises.filter (fun se =>
        !(deadSessions.any (fun t => t.id == se.sessionId) ||
          deadExercises.any (fun e => e.id == se.exerciseId)))
      exerciseSets := s.exerciseSets.filter (fun r =>
        !(deadSE.any (fun se => se.id == r.sessionExerciseId))) }

/-- Modelled from the spec: the current WorkoutRepository.DeleteWorkout
taking a caller identity is absent from the source snapshot.  Per the spec,
`deleteWorkout(ownerId, id)` refuses a workout that is missing or owned by
another caller (`NotFound`), and otherwise issues the single-row DELETE
whose cascades are fixed by the schema (`deleteWorkoutCascade`). -/
def deleteWorkout (uid : String) (wid : Nat) (s : Store) :
    Except Err Unit × Store :=
  if s.workouts.any (fun w => w.id == wid && w.userId == uid) then
    (.ok (), deleteWorkoutCascade wid s)
  else
    (.error .workoutNotFound, s)

/-! ## Session creation with fan-out (CreateSessionWithExercises) -/

/-- The inner loop of CreateSessionWithExercises: `for i := 0; i < exercise.Sets;
i++` creating one pre-filled set per iteration through
`CreateExerciseSet(ctx, "", set)` (internal call, empty caller). -/
def fanoutSets (seid : Nat) (reps weight : Int) : Nat → Store → Store
  | 0, s => s
  | n + 1, s =>
    fanoutSets seid reps weight n
      (createExerciseSet ""
        { sessionExerciseId := seid, reps := reps, weight := weight,
          completed := false, notes := none } s).2

/-- The outer loop of CreateSessionWithExercises: for each exercise of the
workout create one session exercise (`CreateSessionExercise(ctx, "", ...)`),
then its pre-filled sets. -/
def fanoutExercises (sid : Nat) : List ExerciseRow → Store → Except Err Unit × Store
  | [], s => (.ok (), s)
  | e :: rest, s =>
    let res := createSessionExercise "" sid e.id s
    match res.1 with
    | .error err => (.error err, res.2)
    | .ok se => fanoutExercises sid rest (fanoutSets se.id e.reps e.weight e.sets res.2)

/-- A session exercise populated with its source exercise and its sets, as
assembled by GetActiveSessionWithExercises. -/
structure PopulatedSessionExercise where
  row : SessionExerciseRow
  exercise : ExerciseRow
  sets : List SetRow
deriving Repr, DecidableEq

/-- The fully populated session returned by GetActiveSessionWithExercises. -/
structure PopulatedSession where
  session : SessionRow
  workout : WorkoutRow
  workoutExercises : List ExerciseRow
  exercises : List PopulatedSessionExercise
deriving Repr, DecidableEq

/-- GetActiveSessionWithExercises: read the active session (`none` when
there is none, without error), populate each session exercise with its
exercise row and sets, then attach the workout (ownership-checked read). -/
def getActiveSessionWithExercises (uid : String) (s : Store) :
    Except Err (Option PopulatedSession) :=
  match getActiveSession uid s with
  | none => .ok none
  | some session =>
    match (getSessionExercises session.id s).mapM (fun se =>
        (getExercise se.exerciseId s).map (fun ex =>
          PopulatedSessionExercise.mk se ex (getExerciseSets se.id s))) with
    | .error e => .error e
    | .ok pops =>
      match getWorkout uid session.workoutId s with
      | .error _ => .error .failedToGetWorkout
      | .ok (w, exs) => .ok (some (PopulatedSession.mk session w exs pops))

/-- CreateSessionWithExercises: create the session row first, then read the
workout (the ownership check happens here, after the insert), then fan out
one session exercise per workout exercise with its pre-filled sets, and
finally return the freshly read active session.  No transaction wraps the
steps: a failure after the first insert leaves the inserted rows behind. -/
def createSessionWithExercises (uid : String) (wid : Nat) (s : Store) :
    Except Err (Option PopulatedSession) × Store :=
  let cres := createSession uid wid s
  match cres.1 with
  | .error e => (.error e, cres.2)
  | .ok session =>
    match getWorkout uid wid cres.2 with
    | .error _ => (.error .failedToGetWorkout, cres.2)
    | .ok wex =>
      let fres := fanoutExercises session.id wex.2 cres.2
      match fres.1 with
      | .error e => (.error e, fres.2)
      | .ok _ => (getActiveSessionWithExercises uid fres.2, fres.2)

/-! ## Progress aggregation (GetProgressData) -/

/-- One aggregated progress row as produced by the Go handler
(exerciseName, date, maxWeight, totalVolume). -/
structure ProgressEntry where
  exerciseName : String
  date : Nat
  maxWeight : Int
  totalVolume : Int
deriving Repr, DecidableEq

/-- One pre-aggregation row of the progress query's FROM/JOIN/WHERE part:
`exercise_sets es JOIN session_exercises se JOIN workout_sessions ws JOIN
exercises e WHERE es.completed AND ws.user_id = ?`, projected to the
grouping keys and the aggregated columns. -/
structure ProgressRow where
  name : String
  date : Nat
  weight : Int
  reps : Int
deriving Repr, DecidableEq

/-- The joined, filtered rows feeding the progress aggregation. -/
def progressRows (uid : String) (s : Store) : List ProgressRow :=
  s.exerciseSets.flatMap (fun es =>
    s.sessionExercises.flatMap (fun se =>
      s.sessions.flatMap (fun ws =>
        s.exercises.flatMap (fun e =>
          if es.sessionExerciseId == se.id && se.sessionId == ws.id &&
             se.exerciseId == e.id && es.completed && ws.userId == uid then
            [ProgressRow.mk e.name (dateOf es.createdAt) es.weight es.reps]
          else []))))

/-- The rows of a `GROUP BY e.name, DATE(es.created_at)` group. -/
def groupRows (rows : List ProgressRow) (k : String × Nat) : List ProgressRow :=
  rows.filter (fun r => r.name == k.1 && r.date == k.2)

/-- Aggregate `MAX(es.weight)` of a group (`0` on the empty group, which the query
never produces). -/
def maxWeightOf (g : List ProgressRow) : Int :=
  ((g.map (fun r => r.weight)).max?).getD 0

/-- Aggregate `SUM(es.weight * es.reps)` of a group. -/
def totalVolumeOf (g : List ProgressRow) : Int :=
  (g.map (fun r => r.weight * r.reps)).sum

/-- Byte-wise lexicographic comparison on strings as character lists,
modelling SQL text collation for `ORDER BY exercise_name`. -/
def lexLe : List Char → List Char → Bool
  | [], _ => true
  | _ :: _, [] => false
  | a :: as, b :: bs => if a < b then true else if b < a then false else lexLe as bs

/-- The output order of the progress query:
`ORDER BY workout_date DESC, exercise_name` (ascending). -/
def progressOrder (a b : ProgressEntry) : Prop :=
  b.date < a.date ∨ (a.date = b.date ∧ lexLe a.exerciseName.data b.exerciseName.data = true)

instance : DecidableRel progressOrder := fun a b => by
  unfold progressOrder; infer_instance

/-- GetProgressData (both dialects; `es.completed = 1` on SQLite denotes the
same condition): group the joined completed rows of the caller by exercise
name and calendar date, aggregate max weight and total volume, and order by
date descending then name ascending. -/
def getProgressData (uid : String) (s : Store) : List ProgressEntry :=
  let rows := progressRows uid s
  List.insertionSort progressOrder
    (((rows.map (fun r => (r.name, r.date))).dedup).map (fun k =>
      ProgressEntry.mk k.1 k.2 (maxWeightOf (groupRows rows k)) (totalVolumeOf (groupRows rows k))))

/-! ## HTTP handler outcomes (main.go) -/

/-- The statuses the handlers in main.go can answer with. -/
inductive HStatus where
  | ok
  | created
  | notFound
  | internalError
deriving Repr, DecidableEq

/-- Handler for `GET /workouts/:id`: any repository error is mapped to
`404 "Workout not found"`. -/
def getWorkoutHandler (uid : String) (wid : Nat) (s : Store) : HStatus :=
  match getWorkout uid wid s with
  | .error _ => .notFound
  | .ok _ => .ok

/-- Handler for `PUT /exercise-sets/:id/complete`: any repository error is mapped to
`500 Internal Server Error` with the error's message. -/
def completeSetHandler (uid : String) (seid : Nat) (setIndex : Int) (s : Store) :
    HStatus × Store :=
  match completeExerciseSet uid seid setIndex s with
  | (.error _, s2) => (.internalError, s2)
  | (.ok _, s2) => (.ok, s2)

/-- Handler for `PUT /sessions/:id/end`: any repository error is mapped to `500`. -/
def endSessionHandler (b : Backend) (uid : String) (sid : Nat) (s : Store) :
    HStatus × Store :=
  match endSession b uid sid s with
  | (.error _, s2) => (.internalError, s2)
  | (.ok _, s2) => (.ok, s2)

/-- Handler for `POST /sessions/:id/exercises`: any repository error is mapped to `500`. -/
def createSessionExerciseHandler (uid : String) (sid eid : Nat) (s : Store) :
    HStatus × Store :=
  match createSessionExercise uid sid eid s with
  | (.error _, s2) => (.internalError, s2)
  | (.ok _, s2) => (.created, s2)

/-- Handler for `PUT /exercise-sets/:id`: any repository error is mapped to `500`. -/
def updateSetHandler (uid : String) (u : SetUpdate) (s : Store) : HStatus × Store :=
  match updateExerciseSet uid u s with
  | (.error _, s2) => (.internalError, s2)
  | (.ok _, s2) => (.ok, s2)

/-! ## Well-formedness: every id in the store was generated by the
fresh-id counter, hence is smaller than `nextId`. -/

/-- Store invariant: all row identifiers and all foreign-key references are
below the fresh-id counter.  Every id the Go code inserts is freshly
generated, so this holds for every reachable store. -/
def Store.WF (s : Store) : Prop :=
  (∀ w ∈ s.workouts, w.id < s.nextId) ∧
  (∀ e ∈ s.exercises, e.id < s.nextId ∧ e.workoutId < s.nextId) ∧
  (∀ t ∈ s.sessions, t.id < s.nextId) ∧
  (∀ se ∈ s.sessionExercises, se.id < s.nextId ∧ se.sessionId < s.nextId) ∧
  (∀ r ∈ s.exerciseSets, r.id < s.nextId ∧ r.sessionExerciseId < s.nextId)

instance (s : Store) : Decidable s.WF := by
  unfold Store.WF; infer_instance

/-- Success test for `Except` results. -/
def resultOk : Except Err α → Bool
  | .ok _ => true
  | .error _ => false

instance {ε α : Type} [DecidableEq ε] [DecidableEq α] : DecidableEq (Except ε α) := fun a b =>
  match a, b with
  | .ok x, .ok y =>
    if h : x = y then .isTrue (by rw [h]) else .isFalse (fun hc => h (Except.ok.inj hc))
  | .error x, .error y =>
    if h : x = y then .isTrue (by rw [h]) else .isFalse (fun hc => h (Except.error.inj hc))
  | .ok x, .error y => .isFalse (fun hc => Except.noConfusion hc)
  | .error x, .ok y => .isFalse (fun hc => Except.noConfusion hc)

/-! ## Example stores used by concrete witnesses and counterexamples -/

/-- User u1 owns workout 1 ("Push Day") with one exercise 2 ("Bench Press",
3 planned sets of 8 at weight 135); no sessions yet. -/
def storeA : Store :=
  { workouts := [⟨1, "u1", "Push Day", 0⟩]
    exercises := [⟨2, 1, "Bench Press", 3, 8, 135, 1⟩]
    sessions := []
    sessionExercises := []
    exerciseSets := []
    nextId := 3
    clock := 10 }

/-- State of `storeA` after u1 started a session from workout 1: session 3 with
session exercise 4 and three pre-filled sets 5, 6, 7. -/
def storeB : Store := (createSessionWithExercises "u1" 1 storeA).2

/-- Two users: ub owns workout 1 with exercise 2 and has an active session 3
with session exercise 4 and one pending set 5; ua owns nothing. -/
def storeC : Store :=
  { workouts := [⟨1, "ub", "Legs", 0⟩]
    exercises := [⟨2, 1, "Squat", 1, 5, 225, 1⟩]
    sessions := [⟨3, "ub", 1, 4, none, true, 4, 4⟩]
    sessionExercises := [⟨4, 3, 2, 5, 5⟩]
    exerciseSets := [⟨5, 4, 5, 225, false, none, 6, 6⟩]
    nextId := 6
    clock := 20 }

/-- A store whose only session is already ended (`is_active = false`,
`ended_at = 5`), owned by u1. -/
def storeD : Store :=
  { workouts := [⟨1, "u1", "Pull Day", 0⟩]
    exercises := []
    sessions := [⟨2, "u1", 1, 3, some 5, false, 3, 5⟩]
    sessionExercises := []
    exerciseSets := []
    nextId := 6
    clock := 30 }

/-! ## Small laws of the store operations -/

/-- An internal call (empty caller) to CreateSessionExercise skips the
ownership check and always inserts. -/
lemma createSessionExercise_internal (sid eid : Nat) (s : Store) :
    createSessionExercise "" sid eid s =
      (.ok (createSessionExerciseCore sid eid s).1, (createSessionExerciseCore sid eid s).2) := by
  simp [createSessionExercise]

/-- An internal call (empty caller) to CreateExerciseSet skips the ownership
check and always inserts. -/
lemma createExerciseSet_internal (inp : SetInput) (s : Store) :
    createExerciseSet "" inp s =
      (.ok (createExerciseSetCore inp s).1, (createExerciseSetCore inp s).2) := by
  simp [createExerciseSet]

/-- An internal call (empty caller) to UpdateExerciseSet skips the ownership
check and always updates. -/
lemma updateExerciseSet_internal (u : SetUpdate) (s : Store) :
    updateExerciseSet "" u s = (.ok (), updateExerciseSetCore u s) := by
  simp [updateExerciseSet]

/-- The set fan-out loop in closed form: `n` fresh rows referencing the
session exercise, pre-filled and not completed, appended to the set table;
the other tables are untouched and the counters advance by `n`. -/
lemma fanoutSets_eq (seid : Nat) (reps weight : Int) :
    ∀ (n : Nat) (s : Store),
      fanoutSets seid reps weight n s =
        { s with
            exerciseSets := s.exerciseSets ++ (List.range n).map (fun k =>
              ⟨s.nextId + k, seid, reps, weight, false, none, s.clock + k, s.clock + k⟩)
            nextId := s.nextId + n
            clock := s.clock + n } := by
  intro n
  induction n with
  | zero => intro s; simp [fanoutSets]
  | succ n ih =>
    intro s
    rw [fanoutSets, createExerciseSet_internal, ih]
    simp only [createExerciseSetCore]
    congr 1
    · rw [List.range_succ_eq_map, List.map_cons, List.map_map, List.append_assoc,
        List.singleton_append]
      congr 1
      refine List.cons_eq_cons.mpr ⟨by simp, ?_⟩
      apply List.map_congr_left
      intro a ha
      simp only [Function.comp, SetRow.mk.injEq, and_true, true_and]
      omega
    · omega
    · omega

/-- The exercise fan-out loop never fails (every step is an internal call). -/
lemma fanoutExercises_ok (sid : Nat) :
    ∀ (l : List ExerciseRow) (s : Store), (fanoutExercises sid l s).1 = .ok () := by
  intro l
  induction l with
  | nil => intro s; rfl
  | cons e rest ih =>
    intro s
    rw [fanoutExercises, createSessionExercise_internal]
    exact ih (fanoutSets (createSessionExerciseCore sid e.id s).1.id e.reps e.weight e.sets
      (createSessionExerciseCore sid e.id s).2)

/-- The fan-out loops do not touch the workouts, exercises or sessions
tables. -/
lemma fanoutExercises_frame (sid : Nat) :
    ∀ (l : List ExerciseRow) (s : Store),
      (fanoutExercises sid l s).2.workouts = s.workouts ∧
      (fanoutExercises sid l s).2.exercises = s.exercises ∧
      (fanoutExercises sid l s).2.sessions = s.sessions := by
  intro l
  induction l with
  | nil => intro s; exact ⟨rfl, rfl, rfl⟩
  | cons e rest ih =>
    intro s
    have h := ih (fanoutSets (createSessionExerciseCore sid e.id s).1.id e.reps e.weight e.sets
      (createSessionExerciseCore sid e.id s).2)
    have hs := fanoutSets_eq (createSessionExerciseCore sid e.id s).1.id e.reps e.weight
      e.sets (createSessionExerciseCore sid e.id s).2
    rw [fanoutExercises, createSessionExercise_internal]
    exact ⟨h.1.trans (by rw [hs]; simp [createSessionExerciseCore]),
      h.2.1.trans (by rw [hs]; simp [createSessionExerciseCore]),
      h.2.2.trans (by rw [hs]; simp [createSessionExerciseCore])⟩

/-- CreateSessionWithExercises always inserts exactly one new session row:
the fresh active session for the caller.  This holds on every path, also
when the workout read after the insert fails — nothing removes the row. -/
lemma createSessionWithExercises_store (uid : String) (wid : Nat) (s : Store) :
    (createSessionWithExercises uid wid s).2.workouts = s.workouts ∧
    (createSessionWithExercises uid wid s).2.exercises = s.exercises ∧
    (createSessionWithExercises uid wid s).2.sessions =
      s.sessions ++ [⟨s.nextId, uid, wid, s.clock, none, true, s.clock, s.clock⟩] := by
  have h1 : (createSession uid wid s).1 =
      .ok ⟨s.nextId, uid, wid, s.clock, none, true, s.clock, s.clock⟩ := rfl
  simp only [createSessionWithExercises, h1]
  cases hW : getWorkout uid wid (createSession uid wid s).2 with
  | error e => exact ⟨rfl, rfl, rfl⟩
  | ok p =>
    simp only
    have hf := fanoutExercises_ok s.nextId p.2 (createSession uid wid s).2
    rw [hf]
    simp only
    have hframe := fanoutExercises_frame s.nextId p.2 (createSession uid wid s).2
    exact ⟨hframe.1, hframe.2.1, hframe.2.2⟩

/-! ## Claim C10 -/

/-- C10: for every SessionRepository operation taking a caller identity
(CreateSessionExercise, CreateExerciseSet, UpdateExerciseSet,
CompleteExerciseSet), passing the empty string as the caller skips the
ownership-chain verification entirely: the create and update operations
always run their unguarded core (they insert or update no matter who owns
the target), and CompleteExerciseSet can never answer with an
access-denied error. -/
theorem c10_empty_caller_skips_ownership :
    (∀ (sid eid : Nat) (s : Store),
      createSessionExercise "" sid eid s =
        (.ok (createSessionExerciseCore sid eid s).1, (createSessionExerciseCore sid eid s).2)) ∧
    (∀ (inp : SetInput) (s : Store),
      createExerciseSet "" inp s =
        (.ok (createExerciseSetCore inp s).1, (createExerciseSetCore inp s).2)) ∧
    (∀ (u : SetUpdate) (s : Store),
      updateExerciseSet "" u s = (.ok (), updateExerciseSetCore u s)) ∧
    (∀ (seid : Nat) (idx : Int) (s : Store),
      (completeExerciseSet "" seid idx s).1 ≠ .error .sessionExerciseNotFoundOrDenied ∧
      (completeExerciseSet "" seid idx s).1 ≠ .error .exerciseSetNotFoundOrDenied) := by
  refine ⟨createSessionExercise_internal, createExerciseSet_internal,
    updateExerciseSet_internal, ?_⟩
  intro seid idx s
  rw [completeExerciseSet]
  simp only [ne_eq, not_true_eq_false, false_and, if_false]
  split
  · exact ⟨by simp, by simp⟩
  · rw [updateExerciseSet_internal]
    exact ⟨by simp, by simp⟩

/-- C10 witness: two of the internal-caller behaviours evaluated on the
concrete store `storeC` (whose rows all belong to user ub). -/
theorem c10_witness :
    createSessionExercise "" 3 2 storeC =
      (.ok (createSessionExerciseCore 3 2 storeC).1,
        (createSessionExerciseCore 3 2 storeC).2) ∧
    updateExerciseSet "" ⟨5, some 4, 9, 230, true, none⟩ storeC =
      (.ok (), updateExerciseSetCore ⟨5, some 4, 9, 230, true, none⟩ storeC) ∧
    (completeExerciseSet "" 4 0 storeC).1 ≠ .error .sessionExerciseNotFoundOrDenied :=
  ⟨c10_empty_caller_skips_ownership.1 3 2 storeC,
   c10_empty_caller_skips_ownership.2.2.1 ⟨5, some 4, 9, 230, true, none⟩ storeC,
   (c10_empty_caller_skips_ownership.2.2.2 4 0 storeC).1⟩

/-! ## Claim C7 -/

/-- C7 counterexample: user ua starts a session from workout 1, which
belongs to user ub.  The call fails, yet the store is changed: a fresh
active WorkoutSession row for ua (referencing ub's workout) has been
inserted, because CreateSessionWithExercises inserts the session before the
ownership check. -/
theorem c7_counterexample :
    resultOk (createSessionWithExercises "ua" 1 storeC).1 = false ∧
    (createSessionWithExercises "ua" 1 storeC).2.sessions ≠ storeC.sessions := by
  decide

/-- C7 amended: createSessionWithExercises only verifies workout ownership
after inserting the WorkoutSession row.  When the workout is missing or
owned by someone else the call fails and creates no SessionExercise and no
ExerciseSet rows, but the freshly inserted active WorkoutSession row for
the caller remains in the store. -/
theorem c7_failed_create_leaves_session_row (uid : String) (wid : Nat) (s : Store)
    (hW : resultOk (getWorkout uid wid s) = false) :
    resultOk (createSessionWithExercises uid wid s).1 = false ∧
    (createSessionWithExercises uid wid s).2.sessions =
      s.sessions ++ [⟨s.nextId, uid, wid, s.clock, none, true, s.clock, s.clock⟩] ∧
    (createSessionWithExercises uid wid s).2.sessionExercises = s.sessionExercises ∧
    (createSessionWithExercises uid wid s).2.exerciseSets = s.exerciseSets := by
  have h1 : (createSession uid wid s).1 =
      .ok ⟨s.nextId, uid, wid, s.clock, none, true, s.clock, s.clock⟩ := rfl
  have h2 : getWorkout uid wid (createSession uid wid s).2 = getWorkout uid wid s := rfl
  simp only [createSessionWithExercises, h1]
  cases hG : getWorkout uid wid (createSession uid wid s).2 with
  | error e => exact ⟨rfl, rfl, rfl, rfl⟩
  | ok p =>
    rw [h2] at hG
    rw [hG] at hW
    simp [resultOk] at hW

/-- C7 witness: the amended statement evaluated on the concrete cross-user
store. -/
theorem c7_witness :
    resultOk (getWorkout "ua" 1 storeC) = false ∧
    (resultOk (createSessionWithExercises "ua" 1 storeC).1 = false ∧
     (createSessionWithExercises "ua" 1 storeC).2.sessions =
       storeC.sessions ++ [⟨storeC.nextId, "ua", 1, storeC.clock, none, true,
         storeC.clock, storeC.clock⟩] ∧
     (createSessionWithExercises "ua" 1 storeC).2.sessionExercises = storeC.sessionExercises ∧
     (createSessionWithExercises "ua" 1 storeC).2.exerciseSets = storeC.exerciseSets) :=
  ⟨by decide, c7_failed_create_leaves_session_row "ua" 1 storeC (by decide)⟩

/-! ## Claim C2 -/

/-- C2 counterexample: user u1 already has an active session (in `storeB`),
yet a second createSessionWithExercises succeeds — no Conflict — and leaves
two sessions with `is_active = true` for u1. -/
theorem c2_counterexample :
    resultOk (createSessionWithExercises "u1" 1 storeB).1 = true ∧
    ((createSessionWithExercises "u1" 1 storeB).2.sessions.filter
      (fun r => r.userId == "u1" && r.isActive)).length = 2 := by
  decide

/-- C2 amended: session creation performs no active-session check at all.
Starting a session never fails with a conflict; if the caller already has an
active session, a successful second Start leaves at least two active
sessions for that user in the store. -/
theorem c2_no_active_session_guard (uid : String) (wid : Nat) (s : Store)
    (t : SessionRow) (ht : t ∈ s.sessions) (hu : t.userId = uid) (ha : t.isActive = true) :
    2 ≤ ((createSessionWithExercises uid wid s).2.sessions.filter
      (fun r => r.userId == uid && r.isActive)).length := by
  rw [(createSessionWithExercises_store uid wid s).2.2, List.filter_append]
  have hnew : (List.filter (fun r => r.userId == uid && r.isActive)
      [(⟨s.nextId, uid, wid, s.clock, none, true, s.clock, s.clock⟩ : SessionRow)]).length = 1 := by
    simp
  have hold : 1 ≤ (s.sessions.filter (fun r => r.userId == uid && r.isActive)).length := by
    have : t ∈ s.sessions.filter (fun r => r.userId == uid && r.isActive) := by
      rw [List.mem_filter]
      exact ⟨ht, by simp [hu, ha]⟩
    calc 1 ≤ 1 := le_refl 1
      _ ≤ _ := List.length_pos.mpr (List.ne_nil_of_mem this)
  rw [List.length_append, hnew]
  omega

/-- C2 witness: the amended statement at the concrete store with an active
session. -/
theorem c2_witness :
    2 ≤ ((createSessionWithExercises "u1" 1 storeB).2.sessions.filter
      (fun r => r.userId == "u1" && r.isActive)).length :=
  c2_no_active_session_guard "u1" 1 storeB ⟨3, "u1", 1, 10, none, true, 10, 10⟩
    (by decide) (by decide) (by decide)

/-! ## Claim C3 -/

/-- C3 counterexample: in `storeD` session 2, owned by the caller, is
already ended with `ended_at = 5`.  A further endSession call succeeds
(no Conflict) and overwrites `ended_at` with the later timestamp 30 —
a second call does change the session again. -/
theorem c3_counterexample :
    resultOk (endSessionPostgres "u1" 2 storeD).1 = true ∧
    storeD.sessions = [⟨2, "u1", 1, 3, some 5, false, 3, 5⟩] ∧
    (endSessionPostgres "u1" 2 storeD).2.sessions = [⟨2, "u1", 1, 3, some 30, false, 3, 31⟩] := by
  decide

/-- A matching row of the store stays matching after the EndSession update
(the update touches neither the id nor the owner), so the RETURNING /
re-fetch lookup always finds a row. -/
lemma endUpdate_find_isSome (uid : String) (sid t1 t2 : Nat) (s : Store)
    (p : SessionRow → Bool) (r : SessionRow) (hr : r ∈ s.sessions)
    (hid : p r = true → p (endUpdate uid sid t1 t2 r) = true) (hp : p r = true) :
    ((s.sessions.map (endUpdate uid sid t1 t2)).find? p).isSome :=
  List.find?_isSome.mpr ⟨endUpdate uid sid t1 t2 r, List.mem_map_of_mem _ hr, hid hp⟩

/-- The EndSession update never changes a row's id or owner. -/
lemma endUpdate_id_userId (uid : String) (sid t1 t2 : Nat) (r : SessionRow) :
    (endUpdate uid sid t1 t2 r).id = r.id ∧ (endUpdate uid sid t1 t2 r).userId = r.userId := by
  unfold endUpdate
  split <;> exact ⟨rfl, rfl⟩

/-- C3 amended: endSession fails (and changes no session) exactly when no
session with the given id belongs to the caller; but whenever an owned row
with that id exists — active or already ended — the call succeeds and
overwrites `ended_at` with the current time and `updated_at` with the next
tick.  A second endSession on an owned, ended session therefore succeeds
and moves `ended_at` forward rather than failing with Conflict. -/
theorem c3_end_session_not_idempotent (b : Backend) (uid : String) (sid : Nat) (s : Store) :
    (s.sessions.any (fun r => r.id == sid && r.userId == uid) = false →
      resultOk (endSession b uid sid s).1 = false ∧
      (endSession b uid sid s).2.sessions = s.sessions) ∧
    (s.sessions.any (fun r => r.id == sid && r.userId == uid) = true →
      resultOk (endSession b uid sid s).1 = true ∧
      (endSession b uid sid s).2.sessions =
        s.sessions.map (endUpdate uid sid s.clock (s.clock + 1))) := by
  cases b with
  | postgres =>
    constructor
    · intro hno
      rw [endSession, endSessionPostgres]
      rw [if_neg (by simp [hno])]
      exact ⟨rfl, rfl⟩
    · intro hyes
      rw [endSession, endSessionPostgres]
      rw [if_pos (by simp [hyes])]
      dsimp only
      obtain ⟨r, hr, hpr⟩ := List.any_eq_true.mp hyes
      have hsome := endUpdate_find_isSome uid sid s.clock (s.clock + 1) s
        (fun r => r.id == sid && r.userId == uid) r hr
        (by
          intro hp
          have h2 := endUpdate_id_userId uid sid s.clock (s.clock + 1) r
          simp only [h2.1, h2.2]
          exact hp)
        hpr
      cases hf : (s.sessions.map (endUpdate uid sid s.clock (s.clock + 1))).find?
          (fun r => r.id == sid && r.userId == uid) with
      | none => rw [hf] at hsome; simp at hsome
      | some r2 => exact ⟨rfl, rfl⟩
  | sqlite =>
    constructor
    · intro hno
      rw [endSession, endSessionSQLite]
      have hcount : s.sessions.countP (fun r => r.id == sid && r.userId == uid) = 0 := by
        rw [List.countP_eq_zero]
        intro a ha hp
        have : s.sessions.any (fun r => r.id == sid && r.userId == uid) = true :=
          List.any_eq_true.mpr ⟨a, ha, hp⟩
        rw [hno] at this
        exact Bool.false_ne_true this
      rw [if_pos (by simp [hcount])]
      exact ⟨rfl, rfl⟩
    · intro hyes
      rw [endSession, endSessionSQLite]
      obtain ⟨r, hr, hpr⟩ := List.any_eq_true.mp hyes
      have hcount : ¬ s.sessions.countP (fun r => r.id == sid && r.userId == uid) = 0 := by
        intro h0
        exact (List.countP_eq_zero.mp h0) r hr hpr
      rw [if_neg (by simpa using hcount)]
      have hid : (r.id == sid) = true := by
        simp only [Bool.and_eq_true] at hpr
        exact hpr.1
      have hsome := endUpdate_find_isSome uid sid s.clock (s.clock + 1) s
        (fun r => r.id == sid) r hr
        (by
          intro hp
          have h2 := endUpdate_id_userId uid sid s.clock (s.clock + 1) r
          simp only [h2.1]
          exact hp)
        hid
      rw [getSession]
      dsimp only
      cases hf : (s.sessions.map (endUpdate uid sid s.clock (s.clock + 1))).find?
          (fun r => r.id == sid) with
      | none =>
        rw [hf] at hsome
        simp at hsome
      | some r2 => exact ⟨rfl, rfl⟩

/-- C3 witness: the amended statement evaluated on the already-ended
session of `storeD`. -/
theorem c3_witness :
    storeD.sessions.any (fun r => r.id == 2 && r.userId == "u1") = true ∧
    (resultOk (endSession .postgres "u1" 2 storeD).1 = true ∧
     (endSession .postgres "u1" 2 storeD).2.sessions =
       storeD.sessions.map (endUpdate "u1" 2 storeD.clock (storeD.clock + 1))) :=
  ⟨by decide, (c3_end_session_not_idempotent .postgres "u1" 2 storeD).2 (by decide)⟩

/-! ## Claim C9 -/

/-- C9 counterexample: on the same store, ending session 3 as its owner ub
returns different results on the two backends — the PostgreSQL path's
RETURNING clause populates the owning user id, while the SQLite path
re-fetches through a SELECT without the `user_id` column and returns the
session with an empty owner. -/
theorem c9_counterexample :
    (endSessionPostgres "ub" 3 storeC).1 ≠ (endSessionSQLite "ub" 3 storeC).1 := by
  decide

/-- C9 amended: the two dialect code paths agree on which inputs succeed,
on the resulting stored state, and (for session creation) on the returned
value; but EndSession's results differ in the owning-user field: the
PostgreSQL result always carries the caller's id, the SQLite result always
carries the empty string. -/
theorem c9_backends_agree_except_end_owner (uid : String) (sid wid : Nat) (s : Store) :
    createSessionPostgres uid wid s = createSessionSQLite uid wid s ∧
    (endSessionPostgres uid sid s).2 = (endSessionSQLite uid sid s).2 ∧
    resultOk (endSessionPostgres uid sid s).1 = resultOk (endSessionSQLite uid sid s).1 ∧
    (∀ r, (endSessionPostgres uid sid s).1 = .ok r → r.userId = uid) ∧
    (∀ r, (endSessionSQLite uid sid s).1 = .ok r → r.userId = "") := by
  refine ⟨rfl, ?_⟩
  cases hany : s.sessions.any (fun r => r.id == sid && r.userId == uid) with
  | false =>
    have hcount : s.sessions.countP (fun r => r.id == sid && r.userId == uid) = 0 := by
      rw [List.countP_eq_zero]
      intro a ha hp
      have : s.sessions.any (fun r => r.id == sid && r.userId == uid) = true :=
        List.any_eq_true.mpr ⟨a, ha, hp⟩
      rw [hany] at this
      exact Bool.false_ne_true this
    rw [endSessionPostgres, if_neg (by simp [hany]),
      endSessionSQLite, if_pos (by simp [hcount])]
    refine ⟨rfl, rfl, ?_, ?_⟩
    · intro r h
      simp at h
    · intro r h
      simp at h
  | true =>
    obtain ⟨r, hr, hpr⟩ := List.any_eq_true.mp hany
    have hid : (r.id == sid) = true := by
      simp only [Bool.and_eq_true] at hpr
      exact hpr.1
    have hcount : ¬ s.sessions.countP (fun r => r.id == sid && r.userId == uid) = 0 := by
      intro h0
      exact (List.countP_eq_zero.mp h0) r hr hpr
    rw [endSessionPostgres, if_pos (by simp [hany]),
      endSessionSQLite, if_neg (by simpa using hcount)]
    dsimp only
    have hsomeHit := endUpdate_find_isSome uid sid s.clock (s.clock + 1) s
      (fun r => r.id == sid && r.userId == uid) r hr
      (by
        intro hp
        have h2 := endUpdate_id_userId uid sid s.clock (s.clock + 1) r
        simp only [h2.1, h2.2]
        exact hp)
      hpr
    have hsomeId := endUpdate_find_isSome uid sid s.clock (s.clock + 1) s
      (fun r => r.id == sid) r hr
      (by
        intro hp
        have h2 := endUpdate_id_userId uid sid s.clock (s.clock + 1) r
        simp only [h2.1]
        exact hp)
      hid
    rw [getSession]
    dsimp only
    cases hf1 : (s.sessions.map (endUpdate uid sid s.clock (s.clock + 1))).find?
        (fun r => r.id == sid && r.userId == uid) with
    | none => rw [hf1] at hsomeHit; simp at hsomeHit
    | some r2 =>
      cases hf2 : (s.sessions.map (endUpdate uid sid s.clock (s.clock + 1))).find?
          (fun r => r.id == sid) with
      | none => rw [hf2] at hsomeId; simp at hsomeId
      | some r3 =>
        refine ⟨rfl, rfl, ?_, ?_⟩
        · intro r4 h4
          have hp2 := List.find?_some hf1
          simp only [Bool.and_eq_true, beq_iff_eq] at hp2
          injection h4 with h5
          rw [← h5]
          exact hp2.2
        · intro r4 h4
          injection h4 with h5
          rw [← h5]

/-- C9 witness: the amended statement at the concrete store `storeC`. -/
theorem c9_witness :
    createSessionPostgres "ub" 1 storeC = createSessionSQLite "ub" 1 storeC ∧
    (endSessionPostgres "ub" 3 storeC).2 = (endSessionSQLite "ub" 3 storeC).2 ∧
    resultOk (endSessionPostgres "ub" 3 storeC).1 = resultOk (endSessionSQLite "ub" 3 storeC).1 ∧
    (∀ r, (endSessionPostgres "ub" 3 storeC).1 = .ok r → r.userId = "ub") ∧
    (∀ r, (endSessionSQLite "ub" 3 storeC).1 = .ok r → r.userId = "") :=
  c9_backends_agree_except_end_owner "ub" 3 1 storeC

/-! ## Claim C5 -/

/-- C5 counterexample: user ua asks to complete a set of session exercise 4,
which belongs to user ub.  The externally visible outcome is
`500 Internal Server Error`, not NotFound, because the handler for
`PUT /exercise-sets/:id/complete` maps every repository failure to 500. -/
theorem c5_counterexample :
    (completeSetHandler "ua" 4 0 storeC).1 = .internalError ∧
    (completeSetHandler "ua" 4 0 storeC).1 ≠ .notFound := by
  decide

/-- C5 amended: an ownership mismatch and a missing row do produce one and
the same externally visible outcome per operation — the repository returns
one fixed error for a failed ownership walk regardless of the cause, so
existence is not leaked — but only the workout read maps that failure to
NotFound; the session-exercise and set mutation endpoints surface it as an
internal server error. -/
theorem c5_uniform_outcome_not_notFound (s : Store) (uid : String)
    (seid sid eid wid : Nat) (setIndex : Int) (inp : SetInput) (huid : uid ≠ "") :
    (verifySessionExerciseAccess uid seid s = false →
      (completeExerciseSet uid seid setIndex s).1 = .error .sessionExerciseNotFoundOrDenied ∧
      (completeSetHandler uid seid setIndex s).1 = .internalError ∧
      (completeSetHandler uid seid setIndex s).2 = s) ∧
    (verifySessionExerciseAccess uid inp.sessionExerciseId s = false →
      (createExerciseSet uid inp s).1 = .error .sessionExerciseNotFoundOrDenied ∧
      (createExerciseSet uid inp s).2 = s) ∧
    ((getSessionForUser uid sid s).isNone = true →
      (createSessionExercise uid sid eid s).1 = .error .sessionNotFoundOrDenied ∧
      (createSessionExerciseHandler uid sid eid s).1 = .internalError) ∧
    (s.workouts.find? (fun w => w.id == wid && w.userId == uid) = none →
      getWorkout uid wid s = .error .workoutNotFound ∧
      getWorkoutHandler uid wid s = .notFound) := by
  refine ⟨?_, ?_, ?_, ?_⟩
  · intro hV
    have h1 : completeExerciseSet uid seid setIndex s =
        (.error .sessionExerciseNotFoundOrDenied, s) := by
      rw [completeExerciseSet, if_pos ⟨huid, hV⟩]
    rw [completeSetHandler, h1]
    exact ⟨rfl, rfl, rfl⟩
  · intro hV
    rw [createExerciseSet, if_pos ⟨huid, hV⟩]
    exact ⟨rfl, rfl⟩
  · intro hN
    have h1 : createSessionExercise uid sid eid s = (.error .sessionNotFoundOrDenied, s) := by
      rw [createSessionExercise, if_pos ⟨huid, hN⟩]
    rw [createSessionExerciseHandler, h1]
    exact ⟨rfl, rfl⟩
  · intro hF
    have h1 : getWorkout uid wid s = .error .workoutNotFound := by
      rw [getWorkout, hF]
    rw [getWorkoutHandler, h1]
    exact ⟨rfl, rfl⟩

/-- C5 witness: the amended statement evaluated for user ua against
user ub's data in `storeC`. -/
theorem c5_witness :
    (verifySessionExerciseAccess "ua" 4 storeC = false →
      (completeExerciseSet "ua" 4 0 storeC).1 = .error .sessionExerciseNotFoundOrDenied ∧
      (completeSetHandler "ua" 4 0 storeC).1 = .internalError ∧
      (completeSetHandler "ua" 4 0 storeC).2 = storeC) ∧
    (verifySessionExerciseAccess "ua" 4 storeC = false →
      (createExerciseSet "ua" ⟨4, 5, 225, false, none⟩ storeC).1 =
        .error .sessionExerciseNotFoundOrDenied ∧
      (createExerciseSet "ua" ⟨4, 5, 225, false, none⟩ storeC).2 = storeC) ∧
    ((getSessionForUser "ua" 3 storeC).isNone = true →
      (createSessionExercise "ua" 3 2 storeC).1 = .error .sessionNotFoundOrDenied ∧
      (createSessionExerciseHandler "ua" 3 2 storeC).1 = .internalError) ∧
    (storeC.workouts.find? (fun w => w.id == 1 && w.userId == "ua") = none →
      getWorkout "ua" 1 storeC = .error .workoutNotFound ∧
      getWorkoutHandler "ua" 1 storeC = .notFound) :=
  c5_uniform_outcome_not_notFound storeC "ua" 4 3 2 1 0 ⟨4, 5, 225, false, none⟩ (by decide)

/-! ## Claim C8 -/

/-- A store with a completed historical session 3 referencing workout 1. -/
def storeE : Store :=
  { workouts := [⟨1, "u1", "Push", 0⟩]
    exercises := [⟨2, 1, "Bench", 3, 8, 135, 1⟩]
    sessions := [⟨3, "u1", 1, 5, some 9, false, 5, 9⟩]
    sessionExercises := [⟨4, 3, 2, 6, 6⟩]
    exerciseSets := [⟨5, 4, 8, 135, true, none, 7, 7⟩]
    nextId := 6
    clock := 40 }

/-- C8 counterexample: deleting workout 1 removes the historical session 3
that references it — the schema's `ON DELETE CASCADE` on
`workout_sessions.workout_id` deletes sessions along with the workout, so
they do not remain available in history. -/
theorem c8_counterexample :
    resultOk (deleteWorkout "u1" 1 storeE).1 = true ∧
    storeE.sessions ≠ [] ∧
    (deleteWorkout "u1" 1 storeE).2.sessions = [] := by
  decide

/-- C8 amended: deleteWorkout removes the workout and cascades to its
exercises, and — per the declared `ON DELETE CASCADE` foreign key from
`workout_sessions.workout_id` — also removes every WorkoutSession that
references the deleted workout; sessions of other workouts survive. -/
theorem c8_delete_cascades_to_sessions (uid : String) (wid : Nat) (s : Store)
    (hown : s.workouts.any (fun w => w.id == wid && w.userId == uid) = true) :
    (deleteWorkout uid wid s).1 = .ok () ∧
    (deleteWorkout uid wid s).2.workouts = s.workouts.filter (fun w => !(w.id == wid)) ∧
    (deleteWorkout uid wid s).2.exercises =
      s.exercises.filter (fun e => !(e.workoutId == wid)) ∧
    (deleteWorkout uid wid s).2.sessions =
      s.sessions.filter (fun t => !(t.workoutId == wid)) ∧
    (∀ t ∈ s.sessions, t.workoutId = wid → t ∉ (deleteWorkout uid wid s).2.sessions) := by
  rw [deleteWorkout, if_pos hown]
  refine ⟨rfl, rfl, rfl, rfl, ?_⟩
  intro t ht hw hmem
  have h2 := (List.mem_filter.mp hmem).2
  simp [hw] at h2

/-- C8 witness: the amended statement at the concrete historical store. -/
theorem c8_witness :
    (deleteWorkout "u1" 1 storeE).1 = .ok () ∧
    (deleteWorkout "u1" 1 storeE).2.workouts = storeE.workouts.filter (fun w => !(w.id == 1)) ∧
    (deleteWorkout "u1" 1 storeE).2.exercises =
      storeE.exercises.filter (fun e => !(e.workoutId == 1)) ∧
    (deleteWorkout "u1" 1 storeE).2.sessions =
      storeE.sessions.filter (fun t => !(t.workoutId == 1)) ∧
    (∀ t ∈ storeE.sessions, t.workoutId = 1 → t ∉ (deleteWorkout "u1" 1 storeE).2.sessions) :=
  c8_delete_cascades_to_sessions "u1" 1 storeE (by decide)

/-! ## Claim C6 -/

/-- C6: for a session exercise the caller owns, CompleteExerciseSet with an
index outside `[0, len)` of its creation-ordered set list fails with the
invalid-index error and leaves the store untouched; with an index inside
the range it succeeds, marking exactly the indexed set completed while
keeping its reps and weight (and every other set row) unchanged. -/
theorem c6_complete_set_index_bounds (uid : String) (seid : Nat) (setIndex : Int) (s : Store)
    (hV : verifySessionExerciseAccess uid seid s = true) :
    (setIndex < 0 ∨ ((getExerciseSets seid s).length : Int) ≤ setIndex →
      completeExerciseSet uid seid setIndex s = (.error (.invalidSetIndex setIndex), s)) ∧
    (0 ≤ setIndex → setIndex < ((getExerciseSets seid s).length : Int) →
      ∃ t : SetRow,
        (getExerciseSets seid s).get? setIndex.toNat = some t ∧
        t ∈ s.exerciseSets ∧
        (completeExerciseSet uid seid setIndex s).1 = .ok () ∧
        { t with completed := true, updatedAt := s.clock } ∈
          (completeExerciseSet uid seid setIndex s).2.exerciseSets ∧
        ∀ r ∈ s.exerciseSets, r.id ≠ t.id →
          r ∈ (completeExerciseSet uid seid setIndex s).2.exerciseSets) := by
  have hguard : ¬(uid ≠ "" ∧ verifySessionExerciseAccess uid seid s = false) := by
    rintro ⟨h1, h2⟩
    rw [hV] at h2
    simp at h2
  constructor
  · intro hout
    simp only [completeExerciseSet]
    rw [if_neg hguard, dif_pos hout]
  · intro h0 hlen
    have hnot : ¬(setIndex < 0 ∨ ((getExerciseSets seid s).length : Int) ≤ setIndex) := by
      omega
    have hlt : setIndex.toNat < (getExerciseSets seid s).length := by omega
    set t : SetRow := (getExerciseSets seid s).get ⟨setIndex.toNat, hlt⟩ with hdeft
    have htsets : t ∈ getExerciseSets seid s := by
      rw [hdeft]
      exact List.get_mem _ _ hlt
    have htfilter : t ∈ s.exerciseSets.filter (fun r => r.sessionExerciseId == seid) :=
      (List.perm_insertionSort _ _).mem_iff.mp htsets
    have htmem : t ∈ s.exerciseSets := (List.mem_filter.mp htfilter).1
    have htseid : t.sessionExerciseId = seid := by
      have := (List.mem_filter.mp htfilter).2
      simpa using this
    have hmain : completeExerciseSet uid seid setIndex s =
        updateExerciseSet uid
          ⟨t.id, some t.sessionExerciseId, t.reps, t.weight, true, t.notes⟩ s := by
      simp only [completeExerciseSet]
      rw [if_neg hguard, dif_neg hnot]
    have hupd : updateExerciseSet uid
        ⟨t.id, some t.sessionExerciseId, t.reps, t.weight, true, t.notes⟩ s =
        (.ok (), updateExerciseSetCore
          ⟨t.id, some t.sessionExerciseId, t.reps, t.weight, true, t.notes⟩ s) := by
      by_cases huid : uid = ""
      · rw [huid, updateExerciseSet_internal]
      · rw [updateExerciseSet, if_neg huid]
        dsimp only
        rw [htseid, if_pos hV]
    refine ⟨t, List.get?_eq_get hlt, htmem, ?_, ?_, ?_⟩
    · rw [hmain, hupd]
    · rw [hmain, hupd]
      simp only [updateExerciseSetCore]
      have hft : (fun r => if r.id == t.id then
            { r with reps := t.reps, weight := t.weight, completed := true,
                     notes := t.notes, updatedAt := s.clock }
          else r) t = { t with completed := true, updatedAt := s.clock } := by
        simp
      rw [← hft]
      exact List.mem_map_of_mem _ htmem
    · intro r hr hne
      rw [hmain, hupd]
      simp only [updateExerciseSetCore]
      have hfr : (fun r => if r.id == t.id then
            { r with reps := t.reps, weight := t.weight, completed := true,
                     notes := t.notes, updatedAt := s.clock }
          else r) r = r := by
        simp [hne]
      rw [← hfr]
      exact List.mem_map_of_mem _ hr

/-- C6 witness: the amended and in-range branches evaluated on `storeC`
as the owner ub (session exercise 4 has one pending set). -/
theorem c6_witness :
    verifySessionExerciseAccess "ub" 4 storeC = true ∧
    ((5 : Int) < 0 ∨ ((getExerciseSets 4 storeC).length : Int) ≤ 5 →
      completeExerciseSet "ub" 4 5 storeC = (.error (.invalidSetIndex 5), storeC)) ∧
    (0 ≤ (5 : Int) → (5 : Int) < ((getExerciseSets 4 storeC).length : Int) →
      ∃ t : SetRow,
        (getExerciseSets 4 storeC).get? (5 : Int).toNat = some t ∧
        t ∈ storeC.exerciseSets ∧
        (completeExerciseSet "ub" 4 5 storeC).1 = .ok () ∧
        { t with completed := true, updatedAt := storeC.clock } ∈
          (completeExerciseSet "ub" 4 5 storeC).2.exerciseSets ∧
        ∀ r ∈ storeC.exerciseSets, r.id ≠ t.id →
          r ∈ (completeExerciseSet "ub" 4 5 storeC).2.exerciseSets) :=
  ⟨by decide, c6_complete_set_index_bounds "ub" 4 5 storeC (by decide)⟩

/-! ## Claim C4 -/

/-- Totality of the byte-wise string comparison. -/
lemma lexLe_total : ∀ (as bs : List Char), lexLe as bs = true ∨ lexLe bs as = true := by
  intro as
  induction as with
  | nil => intro bs; left; rfl
  | cons a as ih =>
    intro bs
    cases bs with
    | nil => right; rfl
    | cons b bs =>
      by_cases hab : a < b
      · left; simp [lexLe, hab]
      · by_cases hba : b < a
        · right; simp [lexLe, hba]
        · rcases ih bs with h | h
          · left; simp [lexLe, hab, hba, h]
          · right; simp [lexLe, hab, hba, h]

/-- Transitivity of the byte-wise string comparison. -/
lemma lexLe_trans : ∀ (as bs cs : List Char),
    lexLe as bs = true → lexLe bs cs = true → lexLe as cs = true := by
  intro as
  induction as with
  | nil => intro bs cs h1 h2; rfl
  | cons a as ih =>
    intro bs cs h1 h2
    cases bs with
    | nil => simp [lexLe] at h1
    | cons b bs =>
      cases cs with
      | nil => simp [lexLe] at h2
      | cons c cs =>
        simp only [lexLe] at h1 h2 ⊢
        by_cases hab : a < b
        · by_cases hbc : b < c
          · rw [if_pos (hab.trans hbc)]
          · by_cases hcb : c < b
            · rw [if_neg hbc, if_pos hcb] at h2
              exact absurd h2 (by simp)
            · have hbc2 : b = c := le_antisymm (not_lt.mp hcb) (not_lt.mp hbc)
              rw [if_pos (hbc2 ▸ hab)]
        · by_cases hba : b < a
          · rw [if_neg hab, if_pos hba] at h1
            exact absurd h1 (by simp)
          · have hab2 : a = b := le_antisymm (not_lt.mp hba) (not_lt.mp hab)
            rw [if_neg hab, if_neg hba] at h1
            by_cases hbc : b < c
            · rw [if_pos (hab2 ▸ hbc)]
            · by_cases hcb : c < b
              · rw [if_neg hbc, if_pos hcb] at h2
                exact absurd h2 (by simp)
              · have hbc2 : b = c := le_antisymm (not_lt.mp hcb) (not_lt.mp hbc)
                rw [if_neg hbc, if_neg hcb] at h2
                have hac : ¬ a < c := by rw [hab2, hbc2]; exact lt_irrefl c
                have hca : ¬ c < a := by rw [hab2, hbc2]; exact lt_irrefl c
                rw [if_neg hac, if_neg hca]
                exact ih bs cs h1 h2

instance : IsTrans ProgressEntry progressOrder where
  trans a b c hab hbc := by
    rcases hab with h1 | ⟨h1, h1b⟩ <;> rcases hbc with h2 | ⟨h2, h2b⟩
    · left; omega
    · left; omega
    · left; omega
    · right
      exact ⟨by omega, lexLe_trans _ _ _ h1b h2b⟩

instance : IsTotal ProgressEntry progressOrder where
  total a b := by
    rcases Nat.lt_trichotomy a.date b.date with h | h | h
    · right; left; exact h
    · rcases lexLe_total a.exerciseName.data b.exerciseName.data with hl | hl
      · left; right; exact ⟨h, hl⟩
      · right; right; exact ⟨h.symm, hl⟩
    · left; left; exact h

/-- Aggregate `MAX` over a non-empty list of integers: it is attained and bounds the
list. -/
lemma max?_attained (g : List Int) (h : g ≠ []) :
    ∃ m, g.max? = some m ∧ m ∈ g ∧ ∀ x ∈ g, x ≤ m := by
  cases g with
  | nil => exact absurd rfl h
  | cons x xs =>
    have hsome : (x :: xs).max? = some (xs.max?.elim x (max x)) := List.max?_cons
    refine ⟨_, hsome, List.max?_mem (fun a b => max_choice a b) hsome, ?_⟩
    intro y hy
    exact (List.max?_le_iff (fun a b c => max_le_iff) hsome).mp le_rfl y hy

/-- Membership in a conditional singleton. -/
lemma mem_ite_singleton {α : Type} {c : Prop} [Decidable c] {x y : α}
    (h : x ∈ if c then [y] else ([] : List α)) : c ∧ x = y := by
  by_cases hc : c
  · rw [if_pos hc] at h
    exact ⟨hc, List.mem_singleton.mp h⟩
  · rw [if_neg hc] at h
    simp at h

/-- C4: getProgressData aggregates exactly the completed sets of
caller-owned sessions, grouped by exercise name and calendar date: every
output entry belongs to a non-empty group whose maximum weight it attains
and bounds and whose weight-times-reps sum is its total volume; every
joined completed row of the caller yields its group's entry (groups with no
completed set are absent, present groups appear); every aggregated row
really is a completed set reachable through the caller's ownership chain;
and the output is ordered by date descending, then exercise name
ascending. -/
theorem c4_progress_aggregation (uid : String) (s : Store) :
    (∀ pe ∈ getProgressData uid s,
      groupRows (progressRows uid s) (pe.exerciseName, pe.date) ≠ [] ∧
      pe.maxWeight ∈ (groupRows (progressRows uid s) (pe.exerciseName, pe.date)).map
        (fun r => r.weight) ∧
      (∀ r ∈ groupRows (progressRows uid s) (pe.exerciseName, pe.date),
        r.weight ≤ pe.maxWeight) ∧
      pe.totalVolume = ((groupRows (progressRows uid s) (pe.exerciseName, pe.date)).map
        (fun r => r.weight * r.reps)).sum) ∧
    (∀ r ∈ progressRows uid s, ∃ pe ∈ getProgressData uid s,
      pe.exerciseName = r.name ∧ pe.date = r.date) ∧
    (∀ r ∈ progressRows uid s, ∃ es ∈ s.exerciseSets, ∃ se ∈ s.sessionExercises,
      ∃ ws ∈ s.sessions, ∃ e ∈ s.exercises,
      es.sessionExerciseId = se.id ∧ se.sessionId = ws.id ∧ se.exerciseId = e.id ∧
      es.completed = true ∧ ws.userId = uid ∧
      r = ProgressRow.mk e.name (dateOf es.createdAt) es.weight es.reps) ∧
    List.Sorted progressOrder (getProgressData uid s) := by
  refine ⟨?_, ?_, ?_, ?_⟩
  · intro pe hpe
    rw [getProgressData] at hpe
    have hpe2 := (List.perm_insertionSort progressOrder _).mem_iff.mp hpe
    obtain ⟨k, hk, hpek⟩ := List.mem_map.mp hpe2
    have hkeys : k ∈ (progressRows uid s).map (fun r => (r.name, r.date)) :=
      List.mem_dedup.mp hk
    obtain ⟨r0, hr0, hkr0⟩ := List.mem_map.mp hkeys
    have hname : pe.exerciseName = k.1 := by rw [← hpek]
    have hdate : pe.date = k.2 := by rw [← hpek]
    have hr0g : r0 ∈ groupRows (progressRows uid s) k := by
      rw [groupRows, List.mem_filter]
      refine ⟨hr0, ?_⟩
      rw [← hkr0]
      simp
    have hgz : groupRows (progressRows uid s) (pe.exerciseName, pe.date) =
        groupRows (progressRows uid s) k := by
      rw [hname, hdate]
    have hgne : groupRows (progressRows uid s) k ≠ [] := List.ne_nil_of_mem hr0g
    have hmapne : (groupRows (progressRows uid s) k).map (fun r => r.weight) ≠ [] := by
      intro hnil
      rw [List.map_eq_nil_iff] at hnil
      exact hgne hnil
    obtain ⟨m, hm, hmmem, hmbound⟩ := max?_attained _ hmapne
    have hmax : pe.maxWeight = m := by
      rw [← hpek]
      show maxWeightOf (groupRows (progressRows uid s) k) = m
      rw [maxWeightOf, hm]
      rfl
    refine ⟨by rw [hgz]; exact hgne, ?_, ?_, ?_⟩
    · rw [hgz, hmax]
      exact hmmem
    · intro r hrg
      rw [hgz] at hrg
      rw [hmax]
      exact hmbound _ (List.mem_map_of_mem _ hrg)
    · rw [hgz, ← hpek]
      rfl
  · intro r hr
    refine ⟨ProgressEntry.mk r.name r.date
      (maxWeightOf (groupRows (progressRows uid s) (r.name, r.date)))
      (totalVolumeOf (groupRows (progressRows uid s) (r.name, r.date))), ?_, rfl, rfl⟩
    rw [getProgressData]
    apply (List.perm_insertionSort progressOrder _).mem_iff.mpr
    apply List.mem_map.mpr
    refine ⟨(r.name, r.date), ?_, rfl⟩
    rw [List.mem_dedup]
    exact List.mem_map_of_mem _ hr
  · intro r hr
    rw [progressRows] at hr
    rw [List.mem_flatMap] at hr
    obtain ⟨es, hes, hr⟩ := hr
    rw [List.mem_flatMap] at hr
    obtain ⟨se, hse, hr⟩ := hr
    rw [List.mem_flatMap] at hr
    obtain ⟨ws, hws, hr⟩ := hr
    rw [List.mem_flatMap] at hr
    obtain ⟨e, he, hr⟩ := hr
    obtain ⟨hc, hx⟩ := mem_ite_singleton hr
    simp only [Bool.and_eq_true, beq_iff_eq] at hc
    obtain ⟨⟨⟨⟨h1, h2⟩, h3⟩, h4⟩, h5⟩ := hc
    exact ⟨es, hes, se, hse, ws, hws, e, he, h1, h2, h3, h4, h5, hx⟩
  · rw [getProgressData]
    exact List.sorted_insertionSort progressOrder _

/-- C4 witness: the aggregation properties evaluated on the concrete
historical store. -/
theorem c4_witness :
    (∀ pe ∈ getProgressData "u1" storeE,
      groupRows (progressRows "u1" storeE) (pe.exerciseName, pe.date) ≠ [] ∧
      pe.maxWeight ∈ (groupRows (progressRows "u1" storeE) (pe.exerciseName, pe.date)).map
        (fun r => r.weight) ∧
      (∀ r ∈ groupRows (progressRows "u1" storeE) (pe.exerciseName, pe.date),
        r.weight ≤ pe.maxWeight) ∧
      pe.totalVolume = ((groupRows (progressRows "u1" storeE) (pe.exerciseName, pe.date)).map
        (fun r => r.weight * r.reps)).sum) ∧
    (∀ r ∈ progressRows "u1" storeE, ∃ pe ∈ getProgressData "u1" storeE,
      pe.exerciseName = r.name ∧ pe.date = r.date) ∧
    (∀ r ∈ progressRows "u1" storeE, ∃ es ∈ storeE.exerciseSets,
      ∃ se ∈ storeE.sessionExercises, ∃ ws ∈ storeE.sessions, ∃ e ∈ storeE.exercises,
      es.sessionExerciseId = se.id ∧ se.sessionId = ws.id ∧ se.exerciseId = e.id ∧
      es.completed = true ∧ ws.userId = "u1" ∧
      r = ProgressRow.mk e.name (dateOf es.createdAt) es.weight es.reps) ∧
    List.Sorted progressOrder (getProgressData "u1" storeE) :=
  c4_progress_aggregation "u1" storeE

/-! ## Claim C1 -/

/-- Full characterisation of the exercise fan-out loop: it appends one
session exercise per workout exercise (in order, with the exercise's id),
and for each of them exactly `exercise.sets` set rows pre-filled with the
exercise's planned reps and weight and `completed = false`.  The fresh-id
counter keeps new rows out of the reach of existing set rows. -/
lemma fanoutExercises_spec (sid : Nat) :
    ∀ (l : List ExerciseRow) (s : Store),
      (∀ r ∈ s.exerciseSets, r.sessionExerciseId < s.nextId) →
      ∃ ses : List SessionExerciseRow,
        (fanoutExercises sid l s).2.sessionExercises = s.sessionExercises ++ ses ∧
        ses.length = l.length ∧
        s.nextId ≤ (fanoutExercises sid l s).2.nextId ∧
        (∀ se ∈ ses, se.sessionId = sid ∧ s.nextId ≤ se.id) ∧
        (∀ r ∈ (fanoutExercises sid l s).2.exerciseSets,
          r.sessionExerciseId < (fanoutExercises sid l s).2.nextId) ∧
        (∃ added : List SetRow,
          (fanoutExercises sid l s).2.exerciseSets = s.exerciseSets ++ added ∧
          ∀ r ∈ added, s.nextId ≤ r.sessionExerciseId) ∧
        (∀ p ∈ ses.zip l,
          p.1.exerciseId = p.2.id ∧
          ((fanoutExercises sid l s).2.exerciseSets.filter
            (fun r => r.sessionExerciseId == p.1.id)).length = p.2.sets ∧
          (∀ r ∈ (fanoutExercises sid l s).2.exerciseSets,
            r.sessionExerciseId = p.1.id →
            r.reps = p.2.reps ∧ r.weight = p.2.weight ∧ r.completed = false)) := by
  intro l
  induction l with
  | nil =>
    intro s hpre
    exact ⟨[], by simp [fanoutExercises], rfl, le_refl _, by simp, hpre,
      ⟨[], by simp [fanoutExercises], by simp⟩, by simp⟩
  | cons e rest ih =>
    intro s hpre
    have hstep : fanoutExercises sid (e :: rest) s =
        fanoutExercises sid rest (fanoutSets s.nextId e.reps e.weight e.sets
          (createSessionExerciseCore sid e.id s).2) := by
      rw [fanoutExercises, createSessionExercise_internal]
      rfl
    have hs2 : fanoutSets s.nextId e.reps e.weight e.sets
        (createSessionExerciseCore sid e.id s).2 =
      { workouts := s.workouts
        exercises := s.exercises
        sessions := s.sessions
        sessionExercises := s.sessionExercises ++ [⟨s.nextId, sid, e.id, s.clock, s.clock⟩]
        exerciseSets := s.exerciseSets ++ (List.range e.sets).map (fun k =>
          ⟨s.nextId + 1 + k, s.nextId, e.reps, e.weight, false, none,
            s.clock + 1 + k, s.clock + 1 + k⟩)
        nextId := s.nextId + 1 + e.sets
        clock := s.clock + 1 + e.sets } := by
      rw [fanoutSets_eq]
      rfl
    rw [hstep, hs2]
    set S2 : Store :=
      { workouts := s.workouts
        exercises := s.exercises
        sessions := s.sessions
        sessionExercises := s.sessionExercises ++ [⟨s.nextId, sid, e.id, s.clock, s.clock⟩]
        exerciseSets := s.exerciseSets ++ (List.range e.sets).map (fun k =>
          ⟨s.nextId + 1 + k, s.nextId, e.reps, e.weight, false, none,
            s.clock + 1 + k, s.clock + 1 + k⟩)
        nextId := s.nextId + 1 + e.sets
        clock := s.clock + 1 + e.sets } with hS2
    have hS2sets : S2.exerciseSets = s.exerciseSets ++ (List.range e.sets).map (fun k =>
        ⟨s.nextId + 1 + k, s.nextId, e.reps, e.weight, false, none,
          s.clock + 1 + k, s.clock + 1 + k⟩) := rfl
    have hS2next : S2.nextId = s.nextId + 1 + e.sets := rfl
    have hS2ses : S2.sessionExercises =
        s.sessionExercises ++ [⟨s.nextId, sid, e.id, s.clock, s.clock⟩] := rfl
    have hpre2 : ∀ r ∈ S2.exerciseSets, r.sessionExerciseId < S2.nextId := by
      intro r hr
      rw [hS2sets] at hr
      rw [hS2next]
      rcases List.mem_append.mp hr with hr | hr
      · have := hpre r hr
        omega
      · obtain ⟨k, hk, hrk⟩ := List.mem_map.mp hr
        rw [← hrk]
        simp only
        omega
    obtain ⟨ses2, ihses, ihlen, ihnext, ihmem, ihbound, ⟨added2, ihadd, ihaddb⟩, ihzip⟩ :=
      ih S2 hpre2
    refine ⟨⟨s.nextId, sid, e.id, s.clock, s.clock⟩ :: ses2, ?_, ?_, ?_, ?_, ?_, ?_, ?_⟩
    · rw [ihses, hS2ses, List.append_assoc, List.singleton_append]
    · simp [ihlen]
    · rw [hS2next] at ihnext
      omega
    · intro se hse
      rcases List.mem_cons.mp hse with hse | hse
      · rw [hse]
        exact ⟨rfl, le_refl _⟩
      · have := ihmem se hse
        rw [hS2next] at this
        exact ⟨this.1, by omega⟩
    · exact ihbound
    · refine ⟨(List.range e.sets).map (fun k =>
        ⟨s.nextId + 1 + k, s.nextId, e.reps, e.weight, false, none,
          s.clock + 1 + k, s.clock + 1 + k⟩) ++ added2, ?_, ?_⟩
      · rw [ihadd, hS2sets, List.append_assoc]
      · intro r hr
        rcases List.mem_append.mp hr with hr | hr
        · obtain ⟨k, hk, hrk⟩ := List.mem_map.mp hr
          rw [← hrk]
        · have := ihaddb r hr
          rw [hS2next] at this
          omega
    · intro p hp
      rw [List.zip_cons_cons] at hp
      rcases List.mem_cons.mp hp with hp | hp
      · rw [hp]
        refine ⟨rfl, ?_, ?_⟩
        · rw [ihadd, hS2sets, List.filter_append, List.filter_append]
          have hf1 : s.exerciseSets.filter
              (fun r => r.sessionExerciseId == s.nextId) = [] := by
            apply List.filter_eq_nil_iff.mpr
            intro r hr
            have := hpre r hr
            simp only [beq_iff_eq]
            omega
          have hf2 : ((List.range e.sets).map (fun k =>
              (⟨s.nextId + 1 + k, s.nextId, e.reps, e.weight, false, none,
                s.clock + 1 + k, s.clock + 1 + k⟩ : SetRow))).filter
              (fun r => r.sessionExerciseId == s.nextId) = (List.range e.sets).map (fun k =>
              (⟨s.nextId + 1 + k, s.nextId, e.reps, e.weight, false, none,
                s.clock + 1 + k, s.clock + 1 + k⟩ : SetRow)) := by
            apply List.filter_eq_self.mpr
            intro r hr
            obtain ⟨k, hk, hrk⟩ := List.mem_map.mp hr
            rw [← hrk]
            simp
          have hf3 : added2.filter (fun r => r.sessionExerciseId == s.nextId) = [] := by
            apply List.filter_eq_nil_iff.mpr
            intro r hr
            have := ihaddb r hr
            rw [hS2next] at this
            simp only [beq_iff_eq]
            omega
          rw [hf1, hf2, hf3]
          simp
        · intro r hr hrid
          rw [ihadd, hS2sets] at hr
          rcases List.mem_append.mp hr with hr | hr
          · rcases List.mem_append.mp hr with hr | hr
            · have := hpre r hr
              simp only at hrid
              omega
            · obtain ⟨k, hk, hrk⟩ := List.mem_map.mp hr
              rw [← hrk]
              exact ⟨rfl, rfl, rfl⟩
          · have := ihaddb r hr
            rw [hS2next] at this
            simp only at hrid
            omega
      · exact ihzip p hp

/-- C1: starting a session from a workout the caller owns creates exactly
one SessionExercise per workout exercise (in order, referencing it) and
exactly `exercise.sets` ExerciseSet rows per SessionExercise, each
pre-filled with the exercise's planned reps and weight and
`completed = false`. -/
theorem c1_session_fanout (uid : String) (wid : Nat) (s : Store)
    (hWF : s.WF) (w : WorkoutRow) (exs : List ExerciseRow)
    (hW : getWorkout uid wid s = .ok (w, exs))
    (hsucc : resultOk (createSessionWithExercises uid wid s).1 = true) :
    ∃ ses : List SessionExerciseRow,
      (createSessionWithExercises uid wid s).2.sessionExercises =
        s.sessionExercises ++ ses ∧
      ses.length = exs.length ∧
      ∀ p ∈ ses.zip exs,
        p.1.sessionId = s.nextId ∧
        p.1.exerciseId = p.2.id ∧
        ((createSessionWithExercises uid wid s).2.exerciseSets.filter
          (fun r => r.sessionExerciseId == p.1.id)).length = p.2.sets ∧
        (∀ r ∈ (createSessionWithExercises uid wid s).2.exerciseSets,
          r.sessionExerciseId = p.1.id →
          r.reps = p.2.reps ∧ r.weight = p.2.weight ∧ r.completed = false) := by
  have h1 : (createSession uid wid s).1 =
      .ok ⟨s.nextId, uid, wid, s.clock, none, true, s.clock, s.clock⟩ := rfl
  have hW2 : getWorkout uid wid (createSession uid wid s).2 = .ok (w, exs) := hW
  have hstore : (createSessionWithExercises uid wid s).2 =
      (fanoutExercises s.nextId exs (createSession uid wid s).2).2 := by
    simp only [createSessionWithExercises, h1]
    rw [hW2]
    simp only
    rw [fanoutExercises_ok]
  have hpre : ∀ r ∈ (createSession uid wid s).2.exerciseSets,
      r.sessionExerciseId < (createSession uid wid s).2.nextId := by
    intro r hr
    have h5 := hWF.2.2.2.2 r hr
    show r.sessionExerciseId < s.nextId + 1
    omega
  obtain ⟨ses, hses, hlen, hnext, hmem, hbound, hadded, hzip⟩ :=
    fanoutExercises_spec s.nextId exs (createSession uid wid s).2 hpre
  refine ⟨ses, ?_, hlen, ?_⟩
  · rw [hstore, hses]
    rfl
  · intro p hp
    have hp1 := hmem p.1 (List.of_mem_zip hp).1
    have hz := hzip p hp
    refine ⟨hp1.1, hz.1, ?_, ?_⟩
    · rw [hstore]
      exact hz.2.1
    · intro r hr
      rw [hstore] at hr
      exact hz.2.2 r hr

/-- C1 witness: the fan-out statement evaluated on `storeA` (one exercise
with three planned sets). -/
theorem c1_witness :
    storeA.WF ∧
    (∃ ses : List SessionExerciseRow,
      (createSessionWithExercises "u1" 1 storeA).2.sessionExercises =
        storeA.sessionExercises ++ ses ∧
      ses.length = [(⟨2, 1, "Bench Press", 3, 8, 135, 1⟩ : ExerciseRow)].length ∧
      ∀ p ∈ ses.zip [(⟨2, 1, "Bench Press", 3, 8, 135, 1⟩ : ExerciseRow)],
        p.1.sessionId = storeA.nextId ∧
        p.1.exerciseId = p.2.id ∧
        ((createSessionWithExercises "u1" 1 storeA).2.exerciseSets.filter
          (fun r => r.sessionExerciseId == p.1.id)).length = p.2.sets ∧
        (∀ r ∈ (createSessionWithExercises "u1" 1 storeA).2.exerciseSets,
          r.sessionExerciseId = p.1.id →
          r.reps = p.2.reps ∧ r.weight = p.2.weight ∧ r.completed = false)) :=
  ⟨by decide, c1_session_fanout "u1" 1 storeA (by decide) ⟨1, "u1", "Push Day", 0⟩
    [⟨2, 1, "Bench Press", 3, 8, 135, 1⟩] (by decide) (by decide)⟩

end Liftoff
